import Mathlib

set_option maxHeartbeats 1000000

/-!
Verification of the discovery-scan-and-reconciliation pipeline of
nucleus-platform (src/lambda/discovery/src/inventory_runner.py and
src/lambda/discovery/src/data_processor.py), as a shallow embedding.
Python values flowing through the pipeline are modelled by `PyVal`;
statements that can raise are modelled with `Except Unit`.
-/

/-- Model of a Python value as it appears in provider API responses and
normalized resource records: strings, integers, None, lists, and dicts
(association lists in insertion order, keys unique). -/
inductive PyVal where
  | str (s : String)
  | int (n : Int)
  | pynone
  | list (xs : List PyVal)
  | dict (kvs : List (PyVal × PyVal))

mutual
/-- Structural equality of Python values (`==`). -/
def PyVal.beq : PyVal → PyVal → Bool
  | .str a, .str b => a == b
  | .int a, .int b => a == b
  | .pynone, .pynone => true
  | .list a, .list b => PyVal.beqList a b
  | .dict a, .dict b => PyVal.beqPairs a b
  | _, _ => false

/-- Elementwise equality of Python lists. -/
def PyVal.beqList : List PyVal → List PyVal → Bool
  | [], [] => true
  | x :: xs, y :: ys => PyVal.beq x y && PyVal.beqList xs ys
  | _, _ => false

/-- Entrywise equality of dict association lists. -/
def PyVal.beqPairs : List (PyVal × PyVal) → List (PyVal × PyVal) → Bool
  | [], [] => true
  | (k, v) :: r, (k2, v2) :: r2 => PyVal.beq k k2 && PyVal.beq v v2 && PyVal.beqPairs r r2
  | _, _ => false
end

mutual
theorem PyVal.beq_iff : ∀ a b : PyVal, PyVal.beq a b = true ↔ a = b
  | .str a, .str b => by simp [PyVal.beq]
  | .int a, .int b => by simp [PyVal.beq]
  | .pynone, .pynone => by simp [PyVal.beq]
  | .list a, .list b => by simp [PyVal.beq, PyVal.beqList_iff a b]
  | .dict a, .dict b => by simp [PyVal.beq, PyVal.beqPairs_iff a b]
  | .str _, .int _ => by simp [PyVal.beq]
  | .str _, .pynone => by simp [PyVal.beq]
  | .str _, .list _ => by simp [PyVal.beq]
  | .str _, .dict _ => by simp [PyVal.beq]
  | .int _, .str _ => by simp [PyVal.beq]
  | .int _, .pynone => by simp [PyVal.beq]
  | .int _, .list _ => by simp [PyVal.beq]
  | .int _, .dict _ => by simp [PyVal.beq]
  | .pynone, .str _ => by simp [PyVal.beq]
  | .pynone, .int _ => by simp [PyVal.beq]
  | .pynone, .list _ => by simp [PyVal.beq]
  | .pynone, .dict _ => by simp [PyVal.beq]
  | .list _, .str _ => by simp [PyVal.beq]
  | .list _, .int _ => by simp [PyVal.beq]
  | .list _, .pynone => by simp [PyVal.beq]
  | .list _, .dict _ => by simp [PyVal.beq]
  | .dict _, .str _ => by simp [PyVal.beq]
  | .dict _, .int _ => by simp [PyVal.beq]
  | .dict _, .pynone => by simp [PyVal.beq]
  | .dict _, .list _ => by simp [PyVal.beq]

theorem PyVal.beqList_iff : ∀ a b : List PyVal, PyVal.beqList a b = true ↔ a = b
  | [], [] => by simp [PyVal.beqList]
  | x :: xs, y :: ys => by
    simp [PyVal.beqList, PyVal.beq_iff x y, PyVal.beqList_iff xs ys]
  | [], _ :: _ => by simp [PyVal.beqList]
  | _ :: _, [] => by simp [PyVal.beqList]

theorem PyVal.beqPairs_iff : ∀ a b : List (PyVal × PyVal), PyVal.beqPairs a b = true ↔ a = b
  | [], [] => by simp [PyVal.beqPairs]
  | (k, v) :: r, (k2, v2) :: r2 => by
    simp [PyVal.beqPairs, PyVal.beq_iff k k2, PyVal.beq_iff v v2, PyVal.beqPairs_iff r r2,
      and_assoc, Prod.ext_iff]
  | [], _ :: _ => by simp [PyVal.beqPairs]
  | _ :: _, [] => by simp [PyVal.beqPairs]
end

instance : DecidableEq PyVal := fun a b => decidable_of_iff _ (PyVal.beq_iff a b)

deriving instance DecidableEq for Except

/-- Python truthiness (`if x:`): empty string, zero, None, empty list and
empty dict are falsy. -/
def PyVal.truthy : PyVal → Bool
  | .str s => !s.isEmpty
  | .int n => n != 0
  | .pynone => false
  | .list xs => !xs.isEmpty
  | .dict kvs => !kvs.isEmpty

/-- `d.get(k)` on a dict with a string key: the binding of `k`, if any. -/
def pyGet (kvs : List (PyVal × PyVal)) (k : String) : Option PyVal :=
  (kvs.find? (fun kv => kv.1 == PyVal.str k)).map (fun kv => kv.2)

/-- `d.get(k, default)` on a dict with a string key. -/
def pyGetD (kvs : List (PyVal × PyVal)) (k : String) (d : PyVal) : PyVal :=
  (pyGet kvs k).getD d

mutual
/-- Python `repr` of a value (the form `str` uses for container elements). -/
def pyRepr : PyVal → String
  | .str s => "\x27" ++ s ++ "\x27"
  | .int n => toString n
  | .pynone => "None"
  | .list xs => "[" ++ String.intercalate ", " (pyReprList xs) ++ "]"
  | .dict kvs => "\x7b" ++ String.intercalate ", " (pyReprPairs kvs) ++ "\x7d"

/-- `repr` of each element of a list. -/
def pyReprList : List PyVal → List String
  | [] => []
  | x :: xs => pyRepr x :: pyReprList xs

/-- `repr` of each `key: value` entry of a dict. -/
def pyReprPairs : List (PyVal × PyVal) → List String
  | [] => []
  | kv :: rest => (pyRepr kv.1 ++ ": " ++ pyRepr kv.2) :: pyReprPairs rest
end

/-- Python `str(v)` as used in f-strings: a string renders as itself,
anything else as its `repr`-style form. -/
def pyStr : PyVal → String
  | .str s => s
  | v => pyRepr v

/-- Python `s.startswith(p)`, computed on the character list so that concrete
instances evaluate inside the kernel. -/
def strStartsWith (s p : String) : Bool := p.data.isPrefixOf s.data

/-- Python `c in s` for a single character. -/
def strContainsChar (s : String) (c : Char) : Bool := s.data.contains c

/-- Split a character list at every occurrence of `c` (Python `s.split(c)`:
never returns an empty list of parts). -/
def splitOnChar (c : Char) : List Char → List (List Char)
  | [] => [[]]
  | x :: xs =>
    match splitOnChar c xs with
    | [] => []
    | h :: t => if x = c then [] :: h :: t else (x :: h) :: t

/-- Python `s.split(c)[-1]`: the final `c`-delimited segment. -/
def strSplitLast (s : String) (c : Char) : String :=
  String.mk ((splitOnChar c s.data).getLastD [])

/-- Python `s.lower()` (ASCII). -/
def strLower (s : String) : String := String.mk (s.data.map Char.toLower)

/-- Python `s.replace(a, b)` for single characters. -/
def strReplaceChar (s : String) (a b : Char) : String :=
  String.mk (s.data.map (fun c => if c = a then b else c))

/-- The normalized identity record built by `extract_resource_identifiers`
(inventory_runner.py, lines 126-132): always exactly the five keys
resourceId, resourceArn, name, state, tags. -/
structure Identifiers where
  resourceId : PyVal
  resourceArn : PyVal
  name : PyVal
  state : PyVal
  tags : PyVal
deriving DecidableEq

/-- Identifier-field priority list (inventory_runner.py, lines 148-151). -/
def idKeys : List String :=
  [ "InstanceId", "DBInstanceIdentifier", "ClusterIdentifier", "FunctionName",
    "BucketName", "VolumeId", "VpcId", "SubnetId", "GroupId", "KeyId",
    "AutoScalingGroupName", "LoadBalancerArn", "TopicArn", "QueueUrl",
    "FileSystemId", "NatGatewayId", "DistributionId" ]

/-- ARN-field priority list (inventory_runner.py, lines 157-158). -/
def arnKeys : List String :=
  [ "Arn", "ARN", "FunctionArn", "DBInstanceArn", "LoadBalancerArn",
    "TopicArn", "QueueUrl", "FileSystemArn", "KeyArn" ]

/-- Name-field priority list (inventory_runner.py, lines 164-165). -/
def nameKeys : List String :=
  [ "Name", "DBInstanceIdentifier", "FunctionName", "BucketName",
    "AutoScalingGroupName", "LoadBalancerName", "FileSystemId" ]

/-- `for key in keys: if key in resource: take resource[key]; break`. -/
def firstKeyMatch (kvs : List (PyVal × PyVal)) : List String → Option PyVal
  | [] => Option.none
  | k :: ks =>
    match pyGet kvs k with
    | some v => some v
    | Option.none => firstKeyMatch kvs ks

/-- The loop searching a Tags list for a `Name` tag (inventory_runner.py,
lines 174-177). `tag.get` on a list element that is not a dict raises
AttributeError, modelled as `Except.error`. -/
def nameFromTags : List PyVal → Except Unit (Option PyVal)
  | [] => Except.ok Option.none
  | t :: ts =>
    match t with
    | .dict kvs =>
      if (pyGet kvs "Key").getD PyVal.pynone == PyVal.str "Name" then
        Except.ok (some ((pyGet kvs "Value").getD (PyVal.str "")))
      else nameFromTags ts
    | _ => Except.error ()

/-- State extraction (inventory_runner.py, lines 180-184): read
State / DBInstanceStatus / Status; inside a dict prefer Name then Code;
keep the initial "unknown" for any other shape. -/
def extractStateField (kvs : List (PyVal × PyVal)) : PyVal :=
  match pyGetD kvs "State" (pyGetD kvs "DBInstanceStatus" (pyGetD kvs "Status" (PyVal.dict []))) with
  | .dict d => pyGetD d "Name" (pyGetD d "Code" (PyVal.str "unknown"))
  | .str s => .str s
  | _ => PyVal.str "unknown"

/-- Insert a binding into a dict, overwriting in place when the key already
exists (Python dict-comprehension semantics for duplicate keys). -/
def dictSet (kvs : List (PyVal × PyVal)) (k v : PyVal) : List (PyVal × PyVal) :=
  if kvs.any (fun kv => kv.1 == k) then
    kvs.map (fun kv => if kv.1 == k then (k, v) else kv)
  else kvs ++ [(k, v)]

/-- The tags dict comprehension (inventory_runner.py, line 189): keep only
dict-shaped tags, keyed by `tag.get('Key','')` with value
`tag.get('Value','')`. -/
def tagsFromList (ts : List PyVal) : List (PyVal × PyVal) :=
  ts.foldl
    (fun acc t =>
      match t with
      | .dict kvs => dictSet acc ((pyGet kvs "Key").getD (PyVal.str "")) ((pyGet kvs "Value").getD (PyVal.str ""))
      | _ => acc)
    []

/-- `extract_resource_identifiers` (inventory_runner.py, lines 124-197).
The `resource_type` and `region` parameters of the Python function are
unused in its body and are omitted. The Name-tag loop can raise, so the
result is in `Except Unit`. -/
def extract_resource_identifiers (resource : PyVal) : Except Unit Identifiers :=
  match resource with
  | .str s =>
    if strStartsWith s "arn:" then
      let rid : String :=
        if strContainsChar s '/' then strSplitLast s '/'
        else strSplitLast s ':'
      Except.ok ⟨.str rid, .str s, .str rid, .str "unknown", .dict []⟩
    else
      Except.ok ⟨.str s, .str "", .str s, .str "unknown", .dict []⟩
  | .dict kvs => do
    let rid := (firstKeyMatch kvs idKeys).getD (.str "")
    let arn := (firstKeyMatch kvs arnKeys).getD (.str "")
    let name0 := (firstKeyMatch kvs nameKeys).getD (.str "")
    let name1 ←
      if name0.truthy then Except.ok name0
      else
        match pyGetD kvs "Tags" (pyGetD kvs "TagList" (.list [])) with
        | .list ts => (nameFromTags ts).map (fun found => found.getD name0)
        | _ => Except.ok name0
    let state := extractStateField kvs
    let tags :=
      match pyGetD kvs "Tags" (pyGetD kvs "TagList" (.list [])) with
      | .list ts => PyVal.dict (tagsFromList ts)
      | .dict d => PyVal.dict d
      | _ => PyVal.dict []
    let name2 := if name1.truthy then name1 else rid
    Except.ok ⟨rid, arn, name2, state, tags⟩
  | _ => Except.ok ⟨.str "", .str "", .str "", .str "unknown", .dict []⟩

example : extract_resource_identifiers (.str "arn:aws:s3:::bkt/obj") =
    Except.ok ⟨.str "obj", .str "arn:aws:s3:::bkt/obj", .str "obj", .str "unknown", .dict []⟩ := by
  decide

example : extract_resource_identifiers (.dict [(.str "Tags", .list [.str "x"])]) = Except.error () := by
  decide

/-! ## Scan orchestrator: `run_inventory_scan` (inventory_runner.py, lines 30-121)

The provider-side work for one (region, sheet) pair — client creation,
method lookup by name, pagination with single-call fallback (lines 76-96) —
is abstracted into a `fetch` function supplied to the orchestrator; its
three observable outcomes are the missing-method skip, an exception, and a
fetched item collection. Session setup and config unpacking (lines 43-64)
select the region list and sheet list that are passed in directly. -/

/-- One entry of the `sheets` catalog (a ResourceTypeSpec). -/
structure Sheet where
  service : String
  function : String
  result_key : String
  sheetName : Option String
deriving DecidableEq

/-- Resource type displayed for a sheet: `sheet.get('name', service_name)`. -/
def Sheet.resourceType (sh : Sheet) : String := sh.sheetName.getD sh.service

/-- Outcome of resolving the client and fetching all pages for one
(region, sheet) pair. -/
inductive FetchOutcome where
  | missingMethod
  | exn
  | ok (items : List PyVal)
deriving DecidableEq

/-- The `resource_data` dict built for one raw item (inventory_runner.py,
lines 100-108): the four context keys, then the update with the extracted
identifiers in their insertion order. -/
def mkResourceData (rtype region service : String) (raw : PyVal) (idrs : Identifiers) : PyVal :=
  PyVal.dict
    [ (.str "resourceType", .str (strReplaceChar (strLower rtype) ' ' '_')),
      (.str "region", .str region),
      (.str "service", .str service),
      (.str "rawData", raw),
      (.str "resourceId", idrs.resourceId),
      (.str "resourceArn", idrs.resourceArn),
      (.str "name", idrs.name),
      (.str "state", idrs.state),
      (.str "tags", idrs.tags) ]

/-- The per-item loop of one pair (inventory_runner.py, lines 99-110): each
item is normalized and appended; an exception from the normalizer aborts
the pair, keeping the prefix already appended to `all_resources`. -/
def collectPair (rtype region service : String) : List PyVal → List PyVal
  | [] => []
  | raw :: rest =>
    match extract_resource_identifiers raw with
    | .error _ => []
    | .ok idrs => mkResourceData rtype region service raw idrs :: collectPair rtype region service rest

/-- Everything one (region, sheet) pair contributes to `all_resources`:
nothing on a missing method or an exception, the collected prefix of the
normalized items otherwise. -/
def pairContribution (fetch : String → Sheet → FetchOutcome) (region : String) (sh : Sheet) : List PyVal :=
  match fetch region sh with
  | .missingMethod => []
  | .exn => []
  | .ok items => collectPair sh.resourceType region sh.service items

/-- `run_inventory_scan` (inventory_runner.py, lines 66-121): the
region × sheet double loop accumulating `all_resources`. -/
def run_inventory_scan (regions : List String) (sheets : List Sheet)
    (fetch : String → Sheet → FetchOutcome) : List PyVal :=
  regions.foldl
    (fun acc region => sheets.foldl (fun acc2 sh => acc2 ++ pairContribution fetch region sh) acc)
    []

/-! ## Persistence engine: data_processor.py -/

/-- `generate_resource_arn` (data_processor.py, lines 10-21), taking the
bindings of the resource dict. A truthy `resourceArn` value is returned
as is; otherwise the pseudo-ARN is assembled by the f-string. -/
def generate_resource_arn (kvs : List (PyVal × PyVal)) (account_id : String) : PyVal :=
  if ((pyGet kvs "resourceArn").getD PyVal.pynone).truthy then
    (pyGet kvs "resourceArn").getD PyVal.pynone
  else
    let resource_type := pyGetD kvs "resourceType" (.str "unknown")
    let resource_id := pyGetD kvs "resourceId" (.str "unknown")
    let region := pyGetD kvs "region" (.str "unknown")
    let service := pyGetD kvs "service" (.str "unknown")
    .str ("arn:aws:" ++ pyStr service ++ ":" ++ pyStr region ++ ":" ++ account_id ++ ":" ++
      pyStr resource_type ++ "/" ++ pyStr resource_id)

/-- The marshalled DynamoDB item built for one resource (data_processor.py,
lines 81-110). Key strings are assembled by f-strings (so through `pyStr`);
attribute slots hold the raw values the code places under the `S` marker;
`tags` and `metadata` are present only when non-empty, with values
stringified by `str(v)`. -/
structure DItem where
  pk : String
  sk : String
  gsi1pk : String
  gsi1sk : String
  gsi2pk : String
  gsi2sk : String
  gsi3pk : String
  gsi3sk : String
  resourceId : PyVal
  resourceArn : PyVal
  resourceType : PyVal
  name : PyVal
  region : PyVal
  state : PyVal
  accountId : String
  lastDiscoveredAt : String
  discoveryStatus : String
  tags : Option (List (PyVal × String))
  metadata : Option (List (PyVal × String))
deriving DecidableEq

/-- Keys excluded from `metadata` (data_processor.py, lines 107-108). -/
def excludedMetaKeys : List String :=
  [ "rawData", "resourceType", "resourceId", "resourceArn", "name", "region",
    "state", "tags", "service" ]

/-- The body of the item-building loop (data_processor.py, lines 71-112) for
one resource. `resource.get` on a non-dict raises, as does `.items()` on a
truthy non-dict `tags` value, hence `Except`. -/
def buildItem (account_id timestamp : String) (resource : PyVal) : Except Unit DItem :=
  match resource with
  | .dict kvs => do
    let resource_arn := generate_resource_arn kvs account_id
    let resource_type := pyGetD kvs "resourceType" (.str "unknown")
    let resource_id := pyGetD kvs "resourceId" (.str "unknown")
    let name := pyGetD kvs "name" resource_id
    let region := pyGetD kvs "region" (.str "unknown")
    let state := pyGetD kvs "state" (.str "unknown")
    let tags := pyGetD kvs "tags" (.dict [])
    let tagsField ←
      if tags.truthy then
        match tags with
        | .dict tkvs => Except.ok (some (tkvs.map (fun kv => (kv.1, pyStr kv.2))))
        | _ => Except.error ()
      else Except.ok Option.none
    let metaPairs := kvs.filter (fun kv => !(excludedMetaKeys.any (fun k => kv.1 == PyVal.str k)))
    let metaField := if metaPairs.isEmpty then Option.none
      else some (metaPairs.map (fun kv => (kv.1, pyStr kv.2)))
    Except.ok
      { pk := "ACCOUNT#" ++ account_id,
        sk := "INVENTORY#" ++ pyStr resource_type ++ "#" ++ pyStr resource_arn,
        gsi1pk := "TYPE#INVENTORY",
        gsi1sk := pyStr resource_type ++ "#" ++ pyStr region ++ "#" ++ pyStr name,
        gsi2pk := "REGION#" ++ pyStr region,
        gsi2sk := pyStr resource_type ++ "#" ++ timestamp,
        gsi3pk := "RESOURCE_TYPE#" ++ pyStr resource_type,
        gsi3sk := account_id ++ "#" ++ pyStr resource_id,
        resourceId := resource_id,
        resourceArn := resource_arn,
        resourceType := resource_type,
        name := name,
        region := region,
        state := state,
        accountId := account_id,
        lastDiscoveredAt := timestamp,
        discoveryStatus := "active",
        tags := tagsField,
        metadata := metaField }
  | _ => Except.error ()

/-- Response of one `batch_write_item` call against a store with state `σ`:
either a reported list of unprocessed items with the new store state, or a
raised exception. -/
inductive BatchOut (σ : Type) where
  | ok (unprocessed : List DItem) (s : σ)
  | exn (s : σ)

/-- Trace of the unprocessed-item retry loop (data_processor.py, lines
125-132): the `(request, reported unprocessed)` pairs of the retry calls
(`Option.none` when the call raised), the sleeps performed before each
retry, whether the surrounding `except` logged an error, the items left
unprocessed when the loop exited, and the final store state. -/
structure RetryTrace (σ : Type) where
  steps : List (List DItem × Option (List DItem))
  sleeps : List Nat
  errLogged : Bool
  leftover : List DItem
  state : σ
deriving DecidableEq

/-- `while unprocessed and retry_count < 3` (data_processor.py, lines
127-132), with `attempt` the current `retry_count` and `remaining` the
retries left before the budget (`3 - retry_count`); each pass sleeps
`2 ** retry_count` and resubmits exactly the previously reported
unprocessed items. A raise inside the loop is caught by the surrounding
`except`, which logs and moves to the next batch. -/
def retryLoop {σ : Type} (db : σ → List DItem → BatchOut σ)
    (s : σ) (unprocessed : List DItem) (attempt remaining : Nat) : RetryTrace σ :=
  match remaining with
  | 0 => ⟨[], [], false, unprocessed, s⟩
  | r + 1 =>
    if unprocessed.isEmpty then ⟨[], [], false, unprocessed, s⟩
    else
      match db s unprocessed with
      | .exn s1 => ⟨[(unprocessed, Option.none)], [2 ^ attempt], true, [], s1⟩
      | .ok u s1 =>
        let t := retryLoop db s1 u (attempt + 1) r
        ⟨(unprocessed, some u) :: t.steps, 2 ^ attempt :: t.sleeps, t.errLogged, t.leftover, t.state⟩

/-- Trace of one batch (data_processor.py, lines 119-135): the initial
`batch_write_item` request, its reported unprocessed items (`Option.none`
when the initial call raised), then the retry-loop trace. -/
structure Episode (σ : Type) where
  initialReq : List DItem
  initialResp : Option (List DItem)
  retrySteps : List (List DItem × Option (List DItem))
  sleeps : List Nat
  errLogged : Bool
  leftover : List DItem
  state : σ
deriving DecidableEq

/-- Issue one batch and run its retry loop. -/
def runBatch {σ : Type} (db : σ → List DItem → BatchOut σ) (s : σ) (batch : List DItem) : Episode σ :=
  match db s batch with
  | .exn s1 => ⟨batch, Option.none, [], [], true, [], s1⟩
  | .ok u s1 =>
    let t := retryLoop db s1 u 0 3
    ⟨batch, some u, t.steps, t.sleeps, t.errLogged, t.leftover, t.state⟩

/-- The sequential per-batch loop (data_processor.py, lines 116-135): each
slice is written in order, threading the store state. -/
def runBatches {σ : Type} (db : σ → List DItem → BatchOut σ) (s : σ) :
    List (List DItem) → List (Episode σ) × σ
  | [] => ([], s)
  | c :: cs =>
    let ep := runBatch db s c
    let rest := runBatches db ep.state cs
    (ep :: rest.1, rest.2)

/-- Fuel-driven slicing loop; with fuel at least the list length it yields
the slices `items[i:i+25]` for `i in range(0, len(items), 25)`. -/
def chunksGo {α : Type} (fuel : Nat) (l : List α) : List (List α) :=
  match fuel, l with
  | _, [] => []
  | 0, _ :: _ => []
  | f + 1, x :: xs => ((x :: xs).take 25) :: chunksGo f ((x :: xs).drop 25)

/-- The `batch_size = 25` slicing of data_processor.py, lines 114-117. -/
def chunks25 {α : Type} (l : List α) : List (List α) := chunksGo l.length l

/-- The raw-snapshot `put_object` request (data_processor.py, lines 54-65):
bucket, key and the fields of the JSON body. -/
structure S3Put where
  bucket : String
  key : String
  bodyAccountId : String
  bodyTimestamp : String
  bodyResourceCount : Nat
  bodyResources : List PyVal
deriving DecidableEq

/-- The snapshot request assembled for an account and resource list. -/
def snapshotPut (bucket_name account_id timestamp datePre : String)
    (resources : List PyVal) : S3Put :=
  ⟨bucket_name, "raw/" ++ datePre ++ "/" ++ account_id ++ "/inventory.json",
    account_id, timestamp, resources.length, resources⟩

/-- How `process_and_store_resources` terminates: normal return of the
resource count, or an uncaught exception from the snapshot write or from
the item-building loop. -/
inductive POutcome where
  | ok (n : Nat)
  | s3Raised
  | buildRaised
deriving DecidableEq

/-- Log lines the engine prints. -/
inductive LogEvt where
  | storedRaw (bucket key : String)
  | batchError
  | storedCount (n : Nat)
deriving DecidableEq

/-- Result of a `process_and_store_resources` run: outcome, the S3 requests
issued, the per-batch DynamoDB traces, the log lines, and the final states
of both stores. -/
structure PersistOut (σs σd : Type) where
  outcome : POutcome
  s3Calls : List S3Put
  episodes : List (Episode σd)
  logs : List LogEvt
  s3State : σs
  dbState : σd

/-- `process_and_store_resources` (data_processor.py, lines 24-139).
`s3put` models `put_object` (`Option.none` = raise, which nothing
catches); `db` models `batch_write_item`. The empty-resources early
return happens before any store call; the snapshot write precedes the
item-building loop, which precedes the batch writes; the function returns
`len(resources)` regardless of unprocessed leftovers. -/
def process_and_store_resources {σs σd : Type}
    (s3put : σs → S3Put → Option σs) (db : σd → List DItem → BatchOut σd)
    (ss : σs) (sd : σd) (bucket_name account_id timestamp datePre : String)
    (resources : List PyVal) : PersistOut σs σd :=
  if resources.isEmpty then ⟨.ok 0, [], [], [], ss, sd⟩
  else
    let put := snapshotPut bucket_name account_id timestamp datePre resources
    match s3put ss put with
    | Option.none => ⟨.s3Raised, [put], [], [], ss, sd⟩
    | some ss1 =>
      match resources.mapM (buildItem account_id timestamp) with
      | .error _ => ⟨.buildRaised, [put], [], [.storedRaw bucket_name put.key], ss1, sd⟩
      | .ok items =>
        let r := runBatches db sd (chunks25 items)
        ⟨.ok resources.length, [put], r.1,
          [.storedRaw bucket_name put.key] ++
            (r.1.filter (fun e => e.errLogged)).map (fun _ => LogEvt.batchError) ++
            [.storedCount resources.length],
          ss1, r.2⟩

/-- DynamoDB put semantics for a keyed table: overwrite the row carrying
the same `(pk, sk)` primary key, or append a new row. -/
def applyPut (tbl : List DItem) (it : DItem) : List DItem :=
  if tbl.any (fun r => r.pk == it.pk && r.sk == it.sk) then
    tbl.map (fun r => if r.pk == it.pk && r.sk == it.sk then it else r)
  else tbl ++ [it]

/-- A store that processes every batch fully (no unprocessed items, no
exceptions), applying the puts in order. -/
def dbHonest : List DItem → List DItem → BatchOut (List DItem) :=
  fun tbl batch => .ok [] (batch.foldl applyPut tbl)

/-- The per-row condition of the missing-sweep (data_processor.py, lines
164-187): queried under `pk = ACCOUNT#account_id` with sk prefix
`INVENTORY#`, kept when the ARN is truthy and the status is `active`, then
selected when the ARN is absent from the discovered set. -/
def markTarget (account_id : String) (discovered : List PyVal) (r : DItem) : Bool :=
  r.pk == "ACCOUNT#" ++ account_id && strStartsWith r.sk "INVENTORY#" &&
    r.resourceArn.truthy && r.discoveryStatus == "active" &&
    !(discovered.any (fun a => a == r.resourceArn))

/-- `mark_missing_resources` (data_processor.py, lines 142-205): updates
each selected row to `discoveryStatus = missing` with a refreshed
`lastDiscoveredAt`, and returns the new table with the count of rows
marked. The function is defined in the repository but never invoked by
`process_and_store_resources` or `main`. -/
def mark_missing_resources (tbl : List DItem) (account_id : String)
    (discovered : List PyVal) (timestamp : String) : List DItem × Nat :=
  (tbl.map (fun r =>
      if markTarget account_id discovered r then
        { r with discoveryStatus := "missing", lastDiscoveredAt := timestamp }
      else r),
    (tbl.filter (markTarget account_id discovered)).length)

/-! ## Concrete fixtures used by witnesses and counterexamples -/

/-- Blob store that accepts every put. -/
def s3Ok : Unit → S3Put → Option Unit := fun s _ => some s

/-- Blob store whose put always raises. -/
def s3Fail : Unit → S3Put → Option Unit := fun _ _ => Option.none

/-- Keyed store that reports every submitted item as unprocessed. -/
def dbAllUnprocessed : Unit → List DItem → BatchOut Unit := fun s req => .ok req s

/-- An InventoryRecord left by a prior run: active, ARN `X`. -/
def staleItem : DItem :=
  { pk := "ACCOUNT#111122223333", sk := "INVENTORY#ec2#X",
    gsi1pk := "TYPE#INVENTORY", gsi1sk := "ec2#us-east-1#old",
    gsi2pk := "REGION#us-east-1", gsi2sk := "ec2#2025-01-01T00:00:00+00:00",
    gsi3pk := "RESOURCE_TYPE#ec2", gsi3sk := "111122223333#i-old",
    resourceId := .str "i-old", resourceArn := .str "X", resourceType := .str "ec2",
    name := .str "old", region := .str "us-east-1", state := .str "running",
    accountId := "111122223333", lastDiscoveredAt := "2025-01-01T00:00:00+00:00",
    discoveryStatus := "active", tags := Option.none, metadata := Option.none }

/-- A freshly scanned resource whose ARN `Y` differs from the stale `X`. -/
def resNew : PyVal :=
  .dict
    [ (.str "resourceType", .str "ec2"), (.str "region", .str "us-east-1"),
      (.str "service", .str "ec2"), (.str "resourceId", .str "i-new"),
      (.str "resourceArn", .str "Y"), (.str "name", .str "new"),
      (.str "state", .str "running"), (.str "tags", .dict []) ]

/-- A persist run over a table holding only the stale record, with a
non-empty scan that did not observe ARN `X`, against fully coöperating
stores. -/
def persistRun1 : PersistOut Unit (List DItem) :=
  process_and_store_resources s3Ok dbHonest () [staleItem] "bkt" "111122223333"
    "2026-10-12T00:00:00+00:00" "2026/10/12" [resNew]

/-- A minimal marshalled item for retry-loop runs. -/
def itemA : DItem :=
  { pk := "ACCOUNT#a", sk := "INVENTORY#t#a1", gsi1pk := "TYPE#INVENTORY",
    gsi1sk := "t#r#n", gsi2pk := "REGION#r", gsi2sk := "t#T",
    gsi3pk := "RESOURCE_TYPE#t", gsi3sk := "a#i", resourceId := .str "i",
    resourceArn := .str "a1", resourceType := .str "t", name := .str "n",
    region := .str "r", state := .str "ok", accountId := "a",
    lastDiscoveredAt := "T", discoveryStatus := "active",
    tags := Option.none, metadata := Option.none }

/-! ## Claim theorems -/

/-- C7: if the input resource sequence is empty, persist returns 0 and
performs no side effects: no snapshot object is written, no batch write is
issued, nothing is logged, and both store states are unchanged (so no
existing record changes status). -/
theorem persist_empty_no_side_effects {σs σd : Type}
    (s3put : σs → S3Put → Option σs) (db : σd → List DItem → BatchOut σd)
    (ss : σs) (sd : σd) (bucket account ts dp : String) :
    process_and_store_resources s3put db ss sd bucket account ts dp [] =
      ⟨POutcome.ok 0, [], [], [], ss, sd⟩ := rfl

/-- C2 counterexample: with a failing blob store and a non-empty scan,
persist does not return the resource count and issues no batch write —
the snapshot failure is not caught, refuting the claim that indexing
still proceeds. -/
theorem snapshot_failure_not_caught_cex :
    (process_and_store_resources s3Fail dbHonest () [] "bkt" "111122223333"
        "T" "D" [resNew]).outcome ≠ POutcome.ok 1 ∧
    (process_and_store_resources s3Fail dbHonest () [] "bkt" "111122223333"
        "T" "D" [resNew]).episodes = [] ∧
    (process_and_store_resources s3Fail dbHonest () [] "bkt" "111122223333"
        "T" "D" [resNew]).logs = [] := by
  refine ⟨by decide, by decide, by decide⟩

/-- C2 (amended): if the raw-snapshot write raises, the exception
propagates out of persist uncaught: the run ends in the raised state, the
only store interaction is the attempted snapshot put, no record is built
or batch-written, nothing is logged, and no count is returned. -/
theorem snapshot_failure_aborts_persist {σs σd : Type}
    (s3put : σs → S3Put → Option σs) (db : σd → List DItem → BatchOut σd)
    (ss : σs) (sd : σd) (bucket account ts dp : String) (resources : List PyVal)
    (hne : resources ≠ [])
    (hfail : s3put ss (snapshotPut bucket account ts dp resources) = Option.none) :
    process_and_store_resources s3put db ss sd bucket account ts dp resources =
      ⟨POutcome.s3Raised, [snapshotPut bucket account ts dp resources], [], [], ss, sd⟩ := by
  have h : resources.isEmpty = false := by
    cases resources with
    | nil => exact absurd rfl hne
    | cons a l => rfl
  simp only [process_and_store_resources, h, Bool.false_eq_true, if_false, hfail]

/-- Witness for C2's amended theorem at a concrete failing store. -/
theorem snapshot_failure_aborts_persist_witness :
    process_and_store_resources s3Fail dbHonest () [] "bkt" "111122223333" "T" "D" [resNew] =
      ⟨POutcome.s3Raised, [snapshotPut "bkt" "111122223333" "T" "D" [resNew]], [], [], (), []⟩ :=
  snapshot_failure_aborts_persist s3Fail dbHonest () [] "bkt" "111122223333" "T" "D" [resNew]
    (List.cons_ne_nil _ _) rfl

/-- C1: a persist run over a non-empty scan performs no reconciliation
sweep. With a fully coöperating store, the prior active record whose ARN
`X` is absent from the scan's ARN set is still `active` afterwards (its
timestamp untouched), while the sweep — `mark_missing_resources`, which no
code path invokes — would have marked exactly that record `missing`. -/
theorem persist_never_runs_missing_sweep :
    persistRun1.outcome = POutcome.ok 1 ∧
    persistRun1.dbState.length = 2 ∧
    persistRun1.dbState.head? = some staleItem ∧
    staleItem.discoveryStatus = "active" ∧
    staleItem.lastDiscoveredAt = "2025-01-01T00:00:00+00:00" ∧
    (mark_missing_resources persistRun1.dbState "111122223333" [PyVal.str "Y"]
        "2026-10-12T00:00:00+00:00").1.head? =
      some { staleItem with
               discoveryStatus := "missing",
               lastDiscoveredAt := "2026-10-12T00:00:00+00:00" } := by
  refine ⟨by decide, by decide, by decide, rfl, rfl, by decide⟩

/-- C6 counterexample: against a store that reports every item unprocessed,
the batch's leftover items after the retry budget are dropped with no
error logged, refuting "dropped with a logged error". -/
theorem leftover_drop_not_logged_cex :
    (runBatch dbAllUnprocessed () [itemA]).leftover ≠ [] ∧
    (runBatch dbAllUnprocessed () [itemA]).errLogged = false ∧
    (runBatch dbAllUnprocessed () [itemA]).retrySteps.length = 3 ∧
    (runBatch dbAllUnprocessed () [itemA]).sleeps = [1, 2, 4] := by
  refine ⟨by decide, by decide, by decide, by decide⟩

/-- C10: `extract_resource_identifiers` raises (AttributeError) on a
structured record whose `Tags` list holds a non-record value and that has
no name-yielding field, instead of returning the defaulted identifier
record. -/
theorem extract_raises_on_nondict_tag :
    extract_resource_identifiers (.dict [ (.str "Tags", .list [ .str "x" ]) ]) =
      Except.error () := by
  decide

/-- C8: a bare string shaped like a provider ARN (leading `arn:`) becomes
the record's `resourceArn`, with `resourceId` its final `/`-delimited
segment (or final `:`-delimited segment when no `/` occurs); any other
bare string becomes `resourceId` wholesale; `name` always equals
`resourceId`, with state `unknown` and no tags. -/
theorem bare_string_normalization (s : String) :
    extract_resource_identifiers (.str s) =
      Except.ok
        { resourceId := .str (if strStartsWith s "arn:" then
              (if strContainsChar s '/' then strSplitLast s '/' else strSplitLast s ':')
            else s),
          resourceArn := .str (if strStartsWith s "arn:" then s else ""),
          name := .str (if strStartsWith s "arn:" then
              (if strContainsChar s '/' then strSplitLast s '/' else strSplitLast s ':')
            else s),
          state := .str "unknown",
          tags := .dict [] } := by
  unfold extract_resource_identifiers
  by_cases h : strStartsWith s "arn:" <;>
    by_cases h2 : strContainsChar s '/' <;>
      simp [h, h2]

/-- A resource dict with no ARN field, as the synthesis branch sees it. -/
def kvsSynth : List (PyVal × PyVal) :=
  [ (.str "service", .str "ec2"), (.str "region", .str "us-east-1"),
    (.str "resourceType", .str "ec2"), (.str "resourceId", .str "i-1") ]

/-- A resource dict carrying a non-empty ARN. -/
def kvsHasArn : List (PyVal × PyVal) := [ (.str "resourceArn", .str "Z") ]

/-- C4: with an absent or empty `resourceArn` the persistence stage
synthesizes `arn:aws:<service>:<region>:<accountId>:<resourceType>/<resourceId>`
from the resource's fields (each defaulting to `unknown`); a present
non-empty ARN string is returned unchanged; and the synthesized value is a
function only of those five inputs, hence identical across any two runs
that agree on them. -/
theorem generate_resource_arn_spec (kvs : List (PyVal × PyVal)) (account_id : String) :
    ((pyGet kvs "resourceArn" = Option.none ∨ pyGet kvs "resourceArn" = some (PyVal.str "")) →
      generate_resource_arn kvs account_id =
        .str ("arn:aws:" ++ pyStr (pyGetD kvs "service" (.str "unknown")) ++ ":" ++
          pyStr (pyGetD kvs "region" (.str "unknown")) ++ ":" ++ account_id ++ ":" ++
          pyStr (pyGetD kvs "resourceType" (.str "unknown")) ++ "/" ++
          pyStr (pyGetD kvs "resourceId" (.str "unknown")))) ∧
    (∀ s : String, s ≠ "" → pyGet kvs "resourceArn" = some (.str s) →
      generate_resource_arn kvs account_id = .str s) ∧
    (∀ kvs2 : List (PyVal × PyVal),
      pyGet kvs2 "resourceArn" = pyGet kvs "resourceArn" →
      pyGetD kvs2 "service" (.str "unknown") = pyGetD kvs "service" (.str "unknown") →
      pyGetD kvs2 "region" (.str "unknown") = pyGetD kvs "region" (.str "unknown") →
      pyGetD kvs2 "resourceType" (.str "unknown") = pyGetD kvs "resourceType" (.str "unknown") →
      pyGetD kvs2 "resourceId" (.str "unknown") = pyGetD kvs "resourceId" (.str "unknown") →
      generate_resource_arn kvs2 account_id = generate_resource_arn kvs account_id) := by
  refine ⟨?_, ?_, ?_⟩
  · intro habs
    rcases habs with h | h <;>
      simp [generate_resource_arn, h, PyVal.truthy, show "".isEmpty = true from rfl]
  · intro s hs h
    have hse : s.isEmpty = false := by
      rcases hb : s.isEmpty with _ | _
      · rfl
      · exact absurd ((String.isEmpty_iff s).mp hb) hs
    simp [generate_resource_arn, h, PyVal.truthy, hse]
  · intro kvs2 h1 h2 h3 h4 h5
    simp only [generate_resource_arn, h1, h2, h3, h4, h5]

/-- Witness for C4 at concrete resources: one lacking an ARN (synthesis)
and one carrying ARN `Z` (returned unchanged). -/
theorem generate_resource_arn_spec_witness :
    generate_resource_arn kvsSynth "111122223333" =
      .str "arn:aws:ec2:us-east-1:111122223333:ec2/i-1" ∧
    generate_resource_arn kvsHasArn "111122223333" = .str "Z" := by
  constructor
  · exact ((generate_resource_arn_spec kvsSynth "111122223333").1 (Or.inl (by decide))).trans
      (by decide)
  · exact (generate_resource_arn_spec kvsHasArn "111122223333").2.1 "Z" (by decide) (by decide)


/-- Characterisation of the sweep's per-row selection: a row is marked
exactly when it lies under the account's inventory key range, has a truthy
ARN, is `active`, and its ARN is not among the discovered ones. -/
theorem markTarget_true_iff (account_id : String) (discovered : List PyVal) (r : DItem) :
    markTarget account_id discovered r = true ↔
      (r.pk = "ACCOUNT#" ++ account_id ∧ strStartsWith r.sk "INVENTORY#" = true ∧
       r.resourceArn.truthy = true ∧ r.discoveryStatus = "active" ∧
       r.resourceArn ∉ discovered) := by
  simp only [markTarget, Bool.and_eq_true, Bool.not_eq_true', beq_iff_eq]
  constructor
  · rintro ⟨⟨⟨⟨hpk, hsk⟩, htr⟩, hst⟩, hany⟩
    refine ⟨hpk, hsk, htr, hst, fun hmem => ?_⟩
    have ht : discovered.any (fun a => a == r.resourceArn) = true :=
      List.any_eq_true.mpr ⟨_, hmem, by simp⟩
    rw [ht] at hany
    cases hany
  · rintro ⟨hpk, hsk, htr, hst, hmem⟩
    refine ⟨⟨⟨⟨hpk, hsk⟩, htr⟩, hst⟩, ?_⟩
    rcases hA : discovered.any (fun a => a == r.resourceArn) with _ | _
    · rfl
    · obtain ⟨a, ha, hae⟩ := List.any_eq_true.mp hA
      exact absurd ((beq_iff_eq.mp hae) ▸ ha) hmem

/-- C3: every record the indexing stage builds is `active` under the
composite primary key `(ACCOUNT#accountId, INVENTORY#type#arn)` with the
run's timestamp; the reconciliation sweep preserves the row count (it
never creates records), marks exactly the account's active inventory rows
whose truthy ARN is absent from the discovered set as `missing` with the
refreshed timestamp, and returns every other row — in particular every
`missing` row — unchanged, so a row flips back to active only through a
fresh discovery write overwriting the row with the same primary key. -/
theorem inventory_status_transitions :
    (∀ account_id timestamp resource item,
      buildItem account_id timestamp resource = Except.ok item →
        item.discoveryStatus = "active" ∧ item.pk = "ACCOUNT#" ++ account_id ∧
        item.sk = "INVENTORY#" ++ pyStr item.resourceType ++ "#" ++ pyStr item.resourceArn ∧
        item.lastDiscoveredAt = timestamp) ∧
    (∀ tbl account_id discovered timestamp,
      (mark_missing_resources tbl account_id discovered timestamp).1.length = tbl.length ∧
      (∀ (i : Nat) (r : DItem), tbl[i]? = some r →
        (r.discoveryStatus = "active" → r.pk = "ACCOUNT#" ++ account_id →
          strStartsWith r.sk "INVENTORY#" = true → r.resourceArn.truthy = true →
          r.resourceArn ∉ discovered →
          ((mark_missing_resources tbl account_id discovered timestamp).1)[i]? =
            some { r with discoveryStatus := "missing", lastDiscoveredAt := timestamp }) ∧
        (r.discoveryStatus ≠ "active" ∨ r.resourceArn ∈ discovered →
          ((mark_missing_resources tbl account_id discovered timestamp).1)[i]? = some r))) ∧
    (∀ tbl it (i : Nat) (r : DItem), tbl[i]? = some r → r.pk = it.pk → r.sk = it.sk →
      (applyPut tbl it)[i]? = some it) := by
  refine ⟨?_, ?_, ?_⟩
  · intro account_id timestamp resource item hb
    cases resource <;> simp only [buildItem] at hb <;> try exact absurd hb (by simp)
    case dict kvs =>
      simp only [bind, Except.bind] at hb
      split at hb
      · split at hb
        · cases hb
          exact ⟨rfl, rfl, rfl, rfl⟩
        · cases hb
      · cases hb
        exact ⟨rfl, rfl, rfl, rfl⟩
  · intro tbl account_id discovered timestamp
    refine ⟨by simp [mark_missing_resources], ?_⟩
    intro i r hr
    have hmap : ((mark_missing_resources tbl account_id discovered timestamp).1)[i]? =
        some (if markTarget account_id discovered r then
            { r with discoveryStatus := "missing", lastDiscoveredAt := timestamp }
          else r) := by
      simp only [mark_missing_resources, List.getElem?_map, hr, Option.map_some']
    constructor
    · intro h1 h2 h3 h4 h5
      have hmt : markTarget account_id discovered r = true :=
        (markTarget_true_iff account_id discovered r).mpr ⟨h2, h3, h4, h1, h5⟩
      rw [hmap, if_pos hmt]
    · intro hcase
      have hmt : markTarget account_id discovered r = false := by
        rcases hv : markTarget account_id discovered r with _ | _
        · rfl
        · obtain ⟨_, _, _, hst, hnm⟩ := (markTarget_true_iff account_id discovered r).mp hv
          rcases hcase with hne | hmem
          · exact absurd hst hne
          · exact absurd hmem hnm
      rw [hmap, if_neg (by simp [hmt])]
  · intro tbl it i r hr hpk hsk
    have hmem : r ∈ tbl := List.getElem?_mem hr
    have hany : tbl.any (fun q => q.pk == it.pk && q.sk == it.sk) = true :=
      List.any_eq_true.mpr ⟨r, hmem, by simp [hpk, hsk]⟩
    simp only [applyPut, hany, if_true, List.getElem?_map, hr, Option.map_some']
    simp [hpk, hsk]

/-- A fresh discovery write for the stale record's primary key. -/
def staleOverwrite : DItem := { staleItem with state := .str "stopped" }

/-- The item built from the `resNew` fixture during indexing. -/
def itemNew : DItem := ((buildItem "111122223333" "T" resNew).toOption).getD itemA

/-- Witness for C3: the freshly built record is active; the sweep marks
the stale active record whose ARN is absent; an overwrite of a missing
row's primary key replaces it with the fresh item. -/
theorem inventory_status_transitions_witness :
    itemNew.discoveryStatus = "active" ∧
    ((mark_missing_resources [staleItem] "111122223333" [PyVal.str "Y"] "T2").1)[0]? =
      some { staleItem with discoveryStatus := "missing", lastDiscoveredAt := "T2" } ∧
    (applyPut [ { staleItem with discoveryStatus := "missing" } ] staleOverwrite)[0]? =
      some staleOverwrite := by
  refine ⟨?_, ?_, ?_⟩
  · exact (inventory_status_transitions.1 "111122223333" "T" resNew itemNew (by decide)).1
  · exact ((inventory_status_transitions.2.1 [staleItem] "111122223333" [PyVal.str "Y"] "T2").2
      0 staleItem rfl).1 rfl rfl (by decide) (by decide) (by decide)
  · exact inventory_status_transitions.2.2 [ { staleItem with discoveryStatus := "missing" } ]
      staleOverwrite 0 { staleItem with discoveryStatus := "missing" } rfl rfl rfl

/-- Unfolding: a retry loop with no budget left stops at once, leaving the
unprocessed items. -/
theorem retryLoop_zero {σ : Type} (db : σ → List DItem → BatchOut σ)
    (s : σ) (u : List DItem) (attempt : Nat) :
    retryLoop db s u attempt 0 = ⟨[], [], false, u, s⟩ := rfl

/-- Unfolding: with nothing unprocessed the loop stops at once. -/
theorem retryLoop_succ_empty {σ : Type} (db : σ → List DItem → BatchOut σ)
    (s : σ) (u : List DItem) (attempt r : Nat) (hc : u.isEmpty = true) :
    retryLoop db s u attempt (r + 1) = ⟨[], [], false, u, s⟩ := by
  simp [retryLoop, hc]

/-- Unfolding: a raised retry call is caught by the surrounding `except`,
which logs the batch error and abandons the batch. -/
theorem retryLoop_succ_exn {σ : Type} (db : σ → List DItem → BatchOut σ)
    (s s1 : σ) (u : List DItem) (attempt r : Nat)
    (hc : u.isEmpty = false) (hdb : db s u = BatchOut.exn s1) :
    retryLoop db s u attempt (r + 1) = ⟨[(u, Option.none)], [2 ^ attempt], true, [], s1⟩ := by
  simp [retryLoop, hc, hdb]

/-- Unfolding: a successful retry call records its request and reported
unprocessed items and loops on the latter. -/
theorem retryLoop_succ_ok {σ : Type} (db : σ → List DItem → BatchOut σ)
    (s s1 : σ) (u u2 : List DItem) (attempt r : Nat)
    (hc : u.isEmpty = false) (hdb : db s u = BatchOut.ok u2 s1) :
    retryLoop db s u attempt (r + 1) =
      ⟨(u, some u2) :: (retryLoop db s1 u2 (attempt + 1) r).steps,
       2 ^ attempt :: (retryLoop db s1 u2 (attempt + 1) r).sleeps,
       (retryLoop db s1 u2 (attempt + 1) r).errLogged,
       (retryLoop db s1 u2 (attempt + 1) r).leftover,
       (retryLoop db s1 u2 (attempt + 1) r).state⟩ := by
  simp [retryLoop, hc, hdb]

/-- Unfolding: a raised initial batch call logs the error and abandons the
batch. -/
theorem runBatch_exn {σ : Type} (db : σ → List DItem → BatchOut σ)
    (s s1 : σ) (batch : List DItem) (hdb : db s batch = BatchOut.exn s1) :
    runBatch db s batch = ⟨batch, Option.none, [], [], true, [], s1⟩ := by
  simp [runBatch, hdb]

/-- Unfolding: a successful initial batch call hands its reported
unprocessed items to the retry loop. -/
theorem runBatch_ok {σ : Type} (db : σ → List DItem → BatchOut σ)
    (s s1 : σ) (batch u : List DItem) (hdb : db s batch = BatchOut.ok u s1) :
    runBatch db s batch =
      ⟨batch, some u, (retryLoop db s1 u 0 3).steps, (retryLoop db s1 u 0 3).sleeps,
       (retryLoop db s1 u 0 3).errLogged, (retryLoop db s1 u 0 3).leftover,
       (retryLoop db s1 u 0 3).state⟩ := by
  simp [runBatch, hdb]

/-- The retry loop performs at most `remaining` retry calls. -/
theorem retryLoop_steps_length_le {σ : Type} (db : σ → List DItem → BatchOut σ) :
    ∀ (remaining attempt : Nat) (s : σ) (u : List DItem),
      (retryLoop db s u attempt remaining).steps.length ≤ remaining := by
  intro remaining
  induction remaining with
  | zero => intro attempt s u; rw [retryLoop_zero]; simp
  | succ r ih =>
    intro attempt s u
    rcases hc : u.isEmpty with _ | _
    · cases hdb : db s u with
      | exn s1 => rw [retryLoop_succ_exn db s s1 u attempt r hc hdb]; simp
      | ok u2 s1 =>
        rw [retryLoop_succ_ok db s s1 u u2 attempt r hc hdb]
        simp only [List.length_cons]
        have := ih (attempt + 1) s1 u2
        omega
    · rw [retryLoop_succ_empty db s u attempt r hc]; simp

/-- Every request the retry loop submits is a previously reported
unprocessed subset, so with a store whose unprocessed reports are
sub-lists of the request, request sizes never grow past the batch bound. -/
theorem retryLoop_req_length_le {σ : Type} (db : σ → List DItem → BatchOut σ)
    (hdb : ∀ (s : σ) (req u : List DItem) (s2 : σ), db s req = BatchOut.ok u s2 → u.Sublist req) :
    ∀ (remaining attempt : Nat) (s : σ) (u : List DItem), u.length ≤ 25 →
      ∀ st ∈ (retryLoop db s u attempt remaining).steps, st.1.length ≤ 25 := by
  intro remaining
  induction remaining with
  | zero => intro attempt s u hu st hst; rw [retryLoop_zero] at hst; simp at hst
  | succ r ih =>
    intro attempt s u hu st hst
    rcases hc : u.isEmpty with _ | _
    · cases hdb2 : db s u with
      | exn s1 =>
        rw [retryLoop_succ_exn db s s1 u attempt r hc hdb2] at hst
        simp only [List.mem_singleton] at hst
        rw [hst]
        exact hu
      | ok u2 s1 =>
        rw [retryLoop_succ_ok db s s1 u u2 attempt r hc hdb2] at hst
        simp only [List.mem_cons] at hst
        rcases hst with h | h
        · rw [h]; exact hu
        · exact ih (attempt + 1) s1 u2 ((hdb s u u2 s1 hdb2).length_le.trans hu) st h
    · rw [retryLoop_succ_empty db s u attempt r hc] at hst; simp at hst

/-- The loop sleeps `2 ^ retry_count` before each retry call, counting up
from the starting attempt. -/
theorem retryLoop_sleeps {σ : Type} (db : σ → List DItem → BatchOut σ) :
    ∀ (remaining attempt : Nat) (s : σ) (u : List DItem),
      (retryLoop db s u attempt remaining).sleeps =
        (List.range (retryLoop db s u attempt remaining).steps.length).map
          (fun i => 2 ^ (attempt + i)) := by
  intro remaining
  induction remaining with
  | zero => intro attempt s u; rw [retryLoop_zero]; simp
  | succ r ih =>
    intro attempt s u
    rcases hc : u.isEmpty with _ | _
    · cases hdb : db s u with
      | exn s1 =>
        rw [retryLoop_succ_exn db s s1 u attempt r hc hdb]
        simp [List.range_succ]
      | ok u2 s1 =>
        rw [retryLoop_succ_ok db s s1 u u2 attempt r hc hdb]
        simp only [List.length_cons, List.range_succ_eq_map, List.map_cons, List.map_map]
        rw [ih (attempt + 1) s1 u2]
        refine congrArg₂ (fun (a : Nat) (l : List Nat) => a :: l) (by simp) ?_
        refine List.map_congr_left ?_
        intro x _
        simp only [Function.comp_apply]
        rw [show attempt + (x + 1) = attempt + 1 + x from by omega]
    · rw [retryLoop_succ_empty db s u attempt r hc]; simp

/-- The first retry call resubmits exactly the initially reported
unprocessed items. -/
theorem retryLoop_first_req {σ : Type} (db : σ → List DItem → BatchOut σ) :
    ∀ (remaining attempt : Nat) (s : σ) (u : List DItem)
      (st : List DItem × Option (List DItem)) (rest : List (List DItem × Option (List DItem))),
      (retryLoop db s u attempt remaining).steps = st :: rest → st.1 = u := by
  intro remaining attempt s u st rest h
  cases remaining with
  | zero => rw [retryLoop_zero] at h; cases h
  | succ r =>
    rcases hc : u.isEmpty with _ | _
    · cases hdb : db s u with
      | exn s1 =>
        rw [retryLoop_succ_exn db s s1 u attempt r hc hdb] at h
        cases h; rfl
      | ok u2 s1 =>
        rw [retryLoop_succ_ok db s s1 u u2 attempt r hc hdb] at h
        cases h; rfl
    · rw [retryLoop_succ_empty db s u attempt r hc] at h; cases h

/-- Every later retry call resubmits exactly the unprocessed items the
previous call reported. -/
theorem retryLoop_chain {σ : Type} (db : σ → List DItem → BatchOut σ) :
    ∀ (remaining attempt : Nat) (s : σ) (u : List DItem) (i : Nat)
      (req u2 : List DItem) (req2 : List DItem × Option (List DItem)),
      (retryLoop db s u attempt remaining).steps[i]? = some (req, some u2) →
      (retryLoop db s u attempt remaining).steps[i + 1]? = some req2 →
      req2.1 = u2 := by
  intro remaining
  induction remaining with
  | zero =>
    intro attempt s u i req u2 req2 h1 h2
    rw [retryLoop_zero] at h1
    simp at h1
  | succ r ih =>
    intro attempt s u i req u2 req2 h1 h2
    rcases hc : u.isEmpty with _ | _
    · cases hdb : db s u with
      | exn s1 =>
        rw [retryLoop_succ_exn db s s1 u attempt r hc hdb] at h1 h2
        cases i with
        | zero => simp at h1
        | succ j => simp at h1
      | ok u3 s1 =>
        rw [retryLoop_succ_ok db s s1 u u3 attempt r hc hdb] at h1 h2
        cases i with
        | zero =>
          simp only [List.getElem?_cons_zero, Option.some.injEq] at h1
          have hu3 : u3 = u2 := by
            have h := congrArg Prod.snd h1
            simpa using h
          simp only [List.getElem?_cons_succ] at h2
          cases hsteps : (retryLoop db s1 u3 (attempt + 1) r).steps with
          | nil => rw [hsteps] at h2; simp at h2
          | cons a l =>
            rw [hsteps] at h2
            simp only [List.getElem?_cons_zero, Option.some.injEq] at h2
            rw [← h2, retryLoop_first_req db r (attempt + 1) s1 u3 a l hsteps]
            exact hu3
        | succ j =>
          simp only [List.getElem?_cons_succ] at h1 h2
          exact ih (attempt + 1) s1 u3 j req u2 req2 h1 h2
    · rw [retryLoop_succ_empty db s u attempt r hc] at h1
      simp at h1

/-- Items left unprocessed when the retry budget runs out are dropped
without any log line: `errLogged` can only come from a raised call, which
leaves no leftover. -/
theorem retryLoop_leftover_no_log {σ : Type} (db : σ → List DItem → BatchOut σ) :
    ∀ (remaining attempt : Nat) (s : σ) (u : List DItem),
      (retryLoop db s u attempt remaining).leftover ≠ [] →
      (retryLoop db s u attempt remaining).errLogged = false := by
  intro remaining
  induction remaining with
  | zero => intro attempt s u _; rw [retryLoop_zero]
  | succ r ih =>
    intro attempt s u h
    rcases hc : u.isEmpty with _ | _
    · cases hdb : db s u with
      | exn s1 =>
        rw [retryLoop_succ_exn db s s1 u attempt r hc hdb] at h
        simp at h
      | ok u2 s1 =>
        rw [retryLoop_succ_ok db s s1 u u2 attempt r hc hdb] at h ⊢
        exact ih (attempt + 1) s1 u2 h
    · rw [retryLoop_succ_empty db s u attempt r hc]

/-- C6 (amended): for every batch, the engine retries at most 3 additional
times, sleeping `2 ^ attempt` seconds before the attempt-th retry; the
first retry resubmits exactly the unprocessed items the initial call
reported and every later retry exactly those the previous call reported;
items still unprocessed after the retry budget are dropped silently — no
error is logged for them (the only batch error log comes from a raised
call, which leaves no leftover) — and are not retried further in that
run. -/
theorem batch_retry_policy {σ : Type} (db : σ → List DItem → BatchOut σ)
    (s : σ) (batch : List DItem) :
    (runBatch db s batch).initialReq = batch ∧
    (runBatch db s batch).retrySteps.length ≤ 3 ∧
    (runBatch db s batch).sleeps =
      (List.range (runBatch db s batch).retrySteps.length).map (fun i => 2 ^ i) ∧
    (∀ (u : List DItem) (st : List DItem × Option (List DItem))
        (rest : List (List DItem × Option (List DItem))),
      (runBatch db s batch).initialResp = some u →
      (runBatch db s batch).retrySteps = st :: rest → st.1 = u) ∧
    (∀ (i : Nat) (req u2 : List DItem) (req2 : List DItem × Option (List DItem)),
      (runBatch db s batch).retrySteps[i]? = some (req, some u2) →
      (runBatch db s batch).retrySteps[i + 1]? = some req2 → req2.1 = u2) ∧
    ((runBatch db s batch).leftover ≠ [] → (runBatch db s batch).errLogged = false) := by
  cases hdb : db s batch with
  | exn s1 =>
    rw [runBatch_exn db s s1 batch hdb]
    refine ⟨rfl, by simp, by simp, ?_, ?_, ?_⟩
    · intro u st rest hresp hsteps; cases hsteps
    · intro i req u2 req2 h1 h2; simp at h1
    · intro h; exact absurd rfl h
  | ok u s1 =>
    rw [runBatch_ok db s s1 batch u hdb]
    refine ⟨rfl, retryLoop_steps_length_le db 3 0 s1 u, ?_, ?_, ?_, ?_⟩
    · have h := retryLoop_sleeps db 3 0 s1 u
      simpa using h
    · intro u2 st rest hresp hsteps
      have hu : u = u2 := by simpa using hresp
      subst hu
      exact retryLoop_first_req db 3 0 s1 u st rest hsteps
    · intro i req u2 req2 h1 h2
      exact retryLoop_chain db 3 0 s1 u i req u2 req2 h1 h2
    · exact retryLoop_leftover_no_log db 3 0 s1 u

/-- Witness for C6's amended theorem: the retry bound and exact sleeps at
a store that never processes anything. -/
theorem batch_retry_policy_witness :
    (runBatch dbAllUnprocessed () [itemA]).retrySteps.length ≤ 3 ∧
    (runBatch dbAllUnprocessed () [itemA]).sleeps =
      (List.range (runBatch dbAllUnprocessed () [itemA]).retrySteps.length).map
        (fun i => 2 ^ i) :=
  ⟨(batch_retry_policy dbAllUnprocessed () [itemA]).2.1,
   (batch_retry_policy dbAllUnprocessed () [itemA]).2.2.1⟩

/-- Every slice the fuel-driven loop produces holds at most 25 items. -/
theorem chunksGo_mem_length_le {α : Type} :
    ∀ (fuel : Nat) (l : List α) (c : List α), c ∈ chunksGo fuel l → c.length ≤ 25 := by
  intro fuel
  induction fuel with
  | zero => intro l c hc; cases l <;> simp [chunksGo] at hc
  | succ f ih =>
    intro l c hc
    cases l with
    | nil => simp [chunksGo] at hc
    | cons x xs =>
      simp only [chunksGo, List.mem_cons] at hc
      rcases hc with h | h
      · rw [h]; exact List.length_take_le 25 (x :: xs)
      · exact ih _ _ h

/-- With fuel at least the list length, the slicing loop produces exactly
`ceil(length / 25)` slices. -/
theorem chunksGo_length {α : Type} :
    ∀ (fuel : Nat) (l : List α), l.length ≤ fuel →
      (chunksGo fuel l).length = (l.length + 24) / 25 := by
  intro fuel
  induction fuel with
  | zero =>
    intro l h
    have hl : l = [] := List.eq_nil_of_length_eq_zero (Nat.le_zero.mp h)
    rw [hl]
    simp [chunksGo]
  | succ f ih =>
    intro l h
    cases l with
    | nil => simp [chunksGo]
    | cons x xs =>
      simp only [chunksGo, List.length_cons]
      have hd : ((x :: xs).drop 25).length ≤ f := by
        simp only [List.length_drop, List.length_cons]
        simp only [List.length_cons] at h
        omega
      rw [ih _ hd]
      simp only [List.length_drop, List.length_cons]
      omega

/-- `chunks25` covers the whole list in at-most-25-item slices, one slice
per 25 items. -/
theorem chunks25_spec {α : Type} (l : List α) :
    (chunks25 l).length = (l.length + 24) / 25 ∧
    ∀ c ∈ chunks25 l, c.length ≤ 25 :=
  ⟨chunksGo_length l.length l le_rfl, fun c hc => chunksGo_mem_length_le l.length l c hc⟩

/-- A successful `mapM` over `Except` preserves the list length. -/
theorem mapM_ok_length {α β : Type} (f : α → Except Unit β) :
    ∀ (l : List α) (out : List β), l.mapM f = Except.ok out → out.length = l.length := by
  intro l
  induction l with
  | nil =>
    intro out h
    simp only [List.mapM_nil, pure, Except.pure] at h
    cases h
    rfl
  | cons a l ih =>
    intro out h
    rw [List.mapM_cons] at h
    cases hfa : f a with
    | error e => rw [hfa] at h; simp [bind, Except.bind] at h
    | ok b =>
      rw [hfa] at h
      simp only [bind, Except.bind] at h
      cases hl : l.mapM f with
      | error e => rw [hl] at h; simp at h
      | ok bs =>
        rw [hl] at h
        simp only [pure, Except.pure] at h
        cases h
        simp [ih bs hl]

/-- The sequential batch loop yields one episode per slice. -/
theorem runBatches_length {σ : Type} (db : σ → List DItem → BatchOut σ) :
    ∀ (chunks : List (List DItem)) (s : σ),
      (runBatches db s chunks).1.length = chunks.length := by
  intro chunks
  induction chunks with
  | nil => intro s; rfl
  | cons c cs ih => intro s; simp [runBatches, ih]

/-- Episode-wise invariants transfer through the sequential batch loop. -/
theorem runBatches_forall {σ : Type} (db : σ → List DItem → BatchOut σ)
    (P : Episode σ → Prop) :
    ∀ (chunks : List (List DItem)) (s : σ),
      (∀ (s2 : σ) (batch : List DItem), batch ∈ chunks → P (runBatch db s2 batch)) →
      ∀ ep ∈ (runBatches db s chunks).1, P ep := by
  intro chunks
  induction chunks with
  | nil => intro s _ ep hep; simp [runBatches] at hep
  | cons c cs ih =>
    intro s hP ep hep
    simp only [runBatches, List.mem_cons] at hep
    rcases hep with h | h
    · rw [h]; exact hP s c (List.mem_cons_self c cs)
    · exact ih ((runBatch db s c).state)
        (fun s2 batch hb => hP s2 batch (List.mem_cons_of_mem c hb)) ep h

/-- Unfolding: the engine's snapshot-failure path (the raise propagates
before any record is built or written). -/
theorem process_s3_failure_eq {σs σd : Type}
    (s3put : σs → S3Put → Option σs) (db : σd → List DItem → BatchOut σd)
    (ss : σs) (sd : σd) (bucket account ts dp : String) (resources : List PyVal)
    (hre : resources.isEmpty = false)
    (hs3 : s3put ss (snapshotPut bucket account ts dp resources) = Option.none) :
    process_and_store_resources s3put db ss sd bucket account ts dp resources =
      ⟨POutcome.s3Raised, [snapshotPut bucket account ts dp resources], [], [], ss, sd⟩ := by
  simp only [process_and_store_resources, hre, Bool.false_eq_true, if_false]
  rw [hs3]

/-- Unfolding: the engine's item-build-failure path (the raise propagates
after the snapshot write). -/
theorem process_build_failure_eq {σs σd : Type}
    (s3put : σs → S3Put → Option σs) (db : σd → List DItem → BatchOut σd)
    (ss : σs) (sd : σd) (bucket account ts dp : String) (resources : List PyVal)
    (hre : resources.isEmpty = false) (ss1 : σs)
    (hs3 : s3put ss (snapshotPut bucket account ts dp resources) = some ss1) (e : Unit)
    (hbuild : resources.mapM (buildItem account ts) = Except.error e) :
    process_and_store_resources s3put db ss sd bucket account ts dp resources =
      ⟨POutcome.buildRaised, [snapshotPut bucket account ts dp resources], [],
       [LogEvt.storedRaw bucket (snapshotPut bucket account ts dp resources).key], ss1, sd⟩ := by
  simp only [process_and_store_resources, hre, Bool.false_eq_true, if_false]
  rw [hs3, hbuild]

/-- Unfolding: the engine's normal path — snapshot stored, items built,
slices written in order, count returned. -/
theorem process_ok_eq {σs σd : Type}
    (s3put : σs → S3Put → Option σs) (db : σd → List DItem → BatchOut σd)
    (ss : σs) (sd : σd) (bucket account ts dp : String) (resources : List PyVal)
    (hre : resources.isEmpty = false) (ss1 : σs)
    (hs3 : s3put ss (snapshotPut bucket account ts dp resources) = some ss1)
    (items : List DItem)
    (hbuild : resources.mapM (buildItem account ts) = Except.ok items) :
    process_and_store_resources s3put db ss sd bucket account ts dp resources =
      ⟨POutcome.ok resources.length, [snapshotPut bucket account ts dp resources],
       (runBatches db sd (chunks25 items)).1,
       [LogEvt.storedRaw bucket (snapshotPut bucket account ts dp resources).key] ++
         (((runBatches db sd (chunks25 items)).1.filter (fun e => e.errLogged)).map
           (fun _ => LogEvt.batchError)) ++
         [LogEvt.storedCount resources.length],
       ss1, (runBatches db sd (chunks25 items)).2⟩ := by
  simp only [process_and_store_resources, hre, Bool.false_eq_true, if_false]
  rw [hs3, hbuild]

/-- C5: when persist returns a count `n`, the engine issued exactly
`ceil(n / 25)` initial batch-write calls, and — provided the store only
ever reports a sub-list of a request as unprocessed — no batch-write call,
initial or retry, ever carries more than 25 items. -/
theorem batch_write_bounds {σs σd : Type}
    (s3put : σs → S3Put → Option σs) (db : σd → List DItem → BatchOut σd)
    (ss : σs) (sd : σd) (bucket account ts dp : String) (resources : List PyVal) (n : Nat)
    (hdb : ∀ (s : σd) (req u : List DItem) (s2 : σd), db s req = BatchOut.ok u s2 → u.Sublist req)
    (hok : (process_and_store_resources s3put db ss sd bucket account ts dp resources).outcome =
      POutcome.ok n) :
    (process_and_store_resources s3put db ss sd bucket account ts dp resources).episodes.length =
      (n + 24) / 25 ∧
    ∀ ep ∈ (process_and_store_resources s3put db ss sd bucket account ts dp resources).episodes,
      ep.initialReq.length ≤ 25 ∧ ∀ st ∈ ep.retrySteps, st.1.length ≤ 25 := by
  rcases hre : resources.isEmpty with _ | _
  · cases hs3 : s3put ss (snapshotPut bucket account ts dp resources) with
    | none =>
      rw [process_s3_failure_eq s3put db ss sd bucket account ts dp resources hre hs3] at hok
      simp at hok
    | some ss1 =>
      cases hbuild : resources.mapM (buildItem account ts) with
      | error e =>
        rw [process_build_failure_eq s3put db ss sd bucket account ts dp resources hre ss1
          hs3 e hbuild] at hok
        simp at hok
      | ok items =>
        rw [process_ok_eq s3put db ss sd bucket account ts dp resources hre ss1 hs3 items
          hbuild] at hok ⊢
        have hn : n = resources.length := by
          have h := hok
          simp only at h
          exact (POutcome.ok.injEq _ _ ▸ h).symm
        subst hn
        have hlen : items.length = resources.length := mapM_ok_length _ resources items hbuild
        constructor
        · simp only
          rw [runBatches_length db (chunks25 items) sd, (chunks25_spec items).1, hlen]
        · simp only
          refine runBatches_forall db _ (chunks25 items) sd ?_
          intro s2 batch hb
          have hb25 : batch.length ≤ 25 := (chunks25_spec items).2 batch hb
          constructor
          · have h1 := (batch_retry_policy db s2 batch).1
            rw [h1]
            exact hb25
          · intro st hst
            cases hdb2 : db s2 batch with
            | exn s1 =>
              rw [runBatch_exn db s2 s1 batch hdb2] at hst
              simp at hst
            | ok u s1 =>
              rw [runBatch_ok db s2 s1 batch u hdb2] at hst
              exact retryLoop_req_length_le db hdb 3 0 s1 u
                ((hdb s2 batch u s1 hdb2).length_le.trans hb25) st hst
  · have hres : resources = [] := List.isEmpty_iff.mp hre
    subst hres
    have hn : n = 0 := by
      simp [process_and_store_resources] at hok
      omega
    subst hn
    exact ⟨by simp [process_and_store_resources], by simp [process_and_store_resources]⟩

/-- Witness for C5: the fully coöperating store satisfies the sub-list
condition, and a one-resource run issues exactly one initial batch call. -/
theorem batch_write_bounds_witness :
    persistRun1.episodes.length = (1 + 24) / 25 :=
  (batch_write_bounds s3Ok dbHonest () [staleItem] "bkt" "111122223333"
      "2026-10-12T00:00:00+00:00" "2026/10/12" [resNew] 1
      (fun s req u s2 hh => by
        simp only [dbHonest, BatchOut.ok.injEq] at hh
        rw [← hh.1]
        exact List.nil_sublist req)
      (by decide)).1

/-- Accumulating with append over a fold is flattening the per-element
contributions. -/
theorem foldl_append_eq_flatMap {α β : Type} (f : α → List β) :
    ∀ (l : List α) (acc : List β),
      l.foldl (fun a x => a ++ f x) acc = acc ++ l.flatMap f := by
  intro l
  induction l with
  | nil => intro acc; simp
  | cons x xs ih => intro acc; simp [List.foldl_cons, ih]

/-- Pointwise equal contribution functions flatten to the same list. -/
theorem flatMap_congr_of_mem {α β : Type} (f g : α → List β) :
    ∀ (l : List α), (∀ x ∈ l, f x = g x) → l.flatMap f = l.flatMap g := by
  intro l
  induction l with
  | nil => intro _; rfl
  | cons x xs ih =>
    intro h
    simp only [List.flatMap_cons]
    rw [h x (List.mem_cons_self x xs), ih (fun y hy => h y (List.mem_cons_of_mem x hy))]

/-- The scan's double accumulating loop is the flattening of the per-pair
contributions. -/
theorem run_inventory_scan_eq_flatMap (regions : List String) (sheets : List Sheet)
    (fetch : String → Sheet → FetchOutcome) :
    run_inventory_scan regions sheets fetch =
      regions.flatMap (fun region => sheets.flatMap (pairContribution fetch region)) := by
  unfold run_inventory_scan
  have hfn : (fun (acc : List PyVal) (region : String) =>
        sheets.foldl (fun acc2 sh => acc2 ++ pairContribution fetch region sh) acc) =
      (fun (acc : List PyVal) (region : String) =>
        acc ++ sheets.flatMap (pairContribution fetch region)) := by
    funext acc region
    exact foldl_append_eq_flatMap (pairContribution fetch region) sheets acc
  rw [hfn]
  simpa using foldl_append_eq_flatMap
    (fun region => sheets.flatMap (pairContribution fetch region)) regions []

/-- C9: an exception while scanning one (region, resourceType) pair — or
an unknown call-method for it — only skips that pair: the scan runs to
completion and returns exactly the flattened contributions of every pair,
with the failing pair contributing nothing and every other pair its
normally collected resources. -/
theorem scan_pair_failure_isolated (regions : List String) (sheets : List Sheet)
    (fetch : String → Sheet → FetchOutcome) (r0 : String) (s0 : Sheet)
    (h : fetch r0 s0 = FetchOutcome.exn ∨ fetch r0 s0 = FetchOutcome.missingMethod) :
    run_inventory_scan regions sheets fetch =
      regions.flatMap (fun region => sheets.flatMap (fun sh =>
        if region = r0 ∧ sh = s0 then [] else pairContribution fetch region sh)) := by
  rw [run_inventory_scan_eq_flatMap]
  refine flatMap_congr_of_mem _ _ regions (fun region _ => ?_)
  refine flatMap_congr_of_mem _ _ sheets (fun sh _ => ?_)
  by_cases hp : region = r0 ∧ sh = s0
  · rw [if_pos hp, hp.1, hp.2]
    rcases h with he | he <;> simp [pairContribution, he]
  · rw [if_neg hp]

/-- A sheet of the default catalog (EC2 instances). -/
def shEC2 : Sheet := ⟨"ec2", "describe_instances", "Reservations", some "EC2Instances"⟩

/-- A second sheet of the default catalog (S3 buckets). -/
def shS3 : Sheet := ⟨"s3", "list_buckets", "Buckets", some "S3Buckets"⟩

/-- A provider that raises for the EC2 sheet and returns one bucket ARN
string for every other sheet. -/
def fetchW : String → Sheet → FetchOutcome :=
  fun _ sh => if sh = shEC2 then FetchOutcome.exn else FetchOutcome.ok [ .str "arn:aws:s3:::bkt1" ]

/-- Witness for C9: with the EC2 pair raising, the scan still returns the
S3 pair's normalized resource. -/
theorem scan_pair_failure_isolated_witness :
    run_inventory_scan ["us-east-1"] [shEC2, shS3] fetchW =
      ["us-east-1"].flatMap (fun region => [shEC2, shS3].flatMap (fun sh =>
        if region = "us-east-1" ∧ sh = shEC2 then []
        else pairContribution fetchW region sh)) :=
  scan_pair_failure_isolated ["us-east-1"] [shEC2, shS3] fetchW "us-east-1" shEC2
    (Or.inl (by decide))
